import Mathlib

/-!
Verification of the sandbox/tool/relay core of `backend/main.py`.

The embedding models POSIX paths lexically: a path is a list of name
segments plus an absolute flag; `Path.resolve()` is modelled as the
lexical collapse of `..` segments (the filesystem under test contains no
symbolic links, so `resolve` is exactly this collapse), and
`Path.relative_to` is the lexical segment-prefix test it performs in
Python. The filesystem, the subprocess runner and the agent event stream
are explicit parameters, so every tool is a pure function of them.
-/

namespace MidiAgent

/-- A parsed path as `pathlib.Path` keeps it: an absolute flag and the
list of segments, with empty and `.` segments dropped (as `Path(...)`
does on construction); `..` segments are kept. -/
structure PyPath where
  absolute : Bool
  segs : List String
deriving Repr, DecidableEq

/-- Splits a character list at every `/` (the pieces of
`s.split("/")`), keeping empty pieces. -/
def splitSlash : List Char → List (List Char)
  | [] => [[]]
  | c :: t =>
    if c = '/' then [] :: splitSlash t
    else
      match splitSlash t with
      | [] => [[c]]
      | h :: r => (c :: h) :: r

/-- Embeds `pathlib.Path(s)` for POSIX strings: a leading `/` marks the
path absolute; splitting on `/` drops empty and `.` components. -/
def parsePath (s : String) : PyPath :=
  { absolute := match s.toList with | '/' :: _ => true | _ => false
    segs := ((splitSlash s.toList).map List.asString).filter (fun t => t ≠ "" && t ≠ ".") }

/-- One step of `..`-collapsing over a reversed segment stack: `..` pops
the most recent segment (at the root it is a no-op, as in POSIX
`resolve`), any other segment is pushed. -/
def collapseStep (acc : List String) (s : String) : List String :=
  if s = ".." then acc.tail else s :: acc

/-- Embeds `Path.resolve()` on an absolute segment list (lexical form:
no symlinks in the modelled filesystem): collapse every `..`. -/
def collapse (segs : List String) : List String :=
  (segs.foldl collapseStep []).reverse

/-- The string form `str(PosixPath(...))` of an absolute segment list. -/
def showPath (segs : List String) : String :=
  "/" ++ String.intercalate "/" segs

/-- Embeds `Path.name`: the final component (empty for the root). -/
def pathName (segs : List String) : String :=
  segs.getLastD ""

/-- The loop body of `validate_path`'s relative branch plus its fallback:
for each allowed base in priority order, join and resolve the candidate
and accept the first base that lexically contains the result
(`potential_path.relative_to(base)`); if none accepts, fall back to the
first base's join (`allowed_dirs[0]`, which raises `IndexError` — here
`none` — when the list is empty). Absolute candidates are resolved
directly. -/
def resolveCandidate (p : PyPath) (allowed_dirs : List (List String)) : Option (List String) :=
  if p.absolute then
    some (collapse p.segs)
  else
    match allowed_dirs.findSome? (fun base =>
        let pot := collapse (base ++ p.segs)
        if base.isPrefixOf pot then some pot else none) with
    | some r => some r
    | none =>
      match allowed_dirs with
      | [] => none
      | base0 :: _ => some (collapse (base0 ++ p.segs))

/-- Embeds `validate_path(relative_path, allowed_dirs)` from
`backend/main.py`: resolve the candidate, then require the resolved path
to be contained in some allowed base, else raise `ValueError` (here
`Except.error`) naming every allowed root; the `IndexError` of an empty
root list is converted by the outer handler to the generic
`Invalid path` message. -/
def validate_path (relative_path : String) (allowed_dirs : List (List String)) :
    Except String (List String) :=
  match resolveCandidate (parsePath relative_path) allowed_dirs with
  | none => .error ("Invalid path: " ++ relative_path)
  | some r =>
    if allowed_dirs.any (fun base => base.isPrefixOf r) then .ok r
    else .error ("Path '" ++ relative_path ++ "' is outside allowed directories: "
      ++ String.intercalate ", " (allowed_dirs.map pathName))

/-- Model of `AGENT_WORKSPACE_DIR = Path(__file__).parent / "agent_workspace"`
at a representative absolute (canonical) location of `backend/main.py`. -/
def AGENT_WORKSPACE_DIR : List String :=
  ["root", "midi-agent", "backend", "agent_workspace"]

/-- Model of `SKILLS_DIR = Path(__file__).parent / "skills"`. -/
def SKILLS_DIR : List String :=
  ["root", "midi-agent", "backend", "skills"]

/-- The root list `read_file` validates against. -/
def readRoots : List (List String) := [AGENT_WORKSPACE_DIR, SKILLS_DIR]

/-- The root list `write_file` and `edit_file` validate against. -/
def writeRoots : List (List String) := [AGENT_WORKSPACE_DIR]

/-- What `Path.read_text()` can do at a path: return the content, raise
`FileNotFoundError`, or raise some other unclassified exception (such as
`IsADirectoryError` or `PermissionError`) carrying its message. -/
inductive ReadOutcome where
  | ok (content : String)
  | notFound
  | otherErr (msg : String)
deriving Repr, DecidableEq

/-- The filesystem state a tool call sees: a map from canonical absolute
paths (segment lists) to their read outcome; a map giving, for each
path, the unclassified exception (such as `IsADirectoryError` from
`write_text` or `FileExistsError` from `mkdir`) that writing there
raises, or `none` when writing there succeeds; and the set of
directories that exist. -/
structure FS where
  read : List String → ReadOutcome
  writeErr : List String → Option String
  dirs : List (List String)

/-- The proper prefixes of a path: the directories
`safe_path.parent.mkdir(parents=True, exist_ok=True)` ensures exist. -/
def parentsOf (p : List String) : List (List String) :=
  (List.range p.length).map (fun k => p.take k)

/-- The effect of a successful `safe_path.write_text(content)` after
the `mkdir` of the parents: the path now reads as `content`, every
ancestor directory exists, everything else is unchanged. -/
def FS.write (fs : FS) (p : List String) (content : String) : FS :=
  { read := fun q => if q = p then .ok content else fs.read q
    writeErr := fs.writeErr
    dirs := parentsOf p ++ fs.dirs }

/-- The left-to-right single-pass scan of Python `str.replace` for a
non-empty pattern `o :: os`: at each position, if the pattern starts
here emit the replacement and skip past the match, else keep one
character and move on. -/
def goRep (o : Char) (os : List Char) (new : List Char) (s : List Char) : List Char :=
  match s with
  | [] => []
  | c :: t =>
    if (o :: os).isPrefixOf (c :: t) then new ++ goRep o os new (t.drop os.length)
    else c :: goRep o os new t
termination_by s.length
decreasing_by
  all_goals simp [List.length_drop]
  omega

/-- Embeds Python `str.replace(old, new)` on character lists: an empty
`old` matches before every character and once at the end (so
`"ab".replace("", "-") == "-a-b-"`); a non-empty `old` is replaced at
every non-overlapping occurrence, scanning left to right. -/
def pyReplaceL (s old new : List Char) : List Char :=
  match old with
  | [] => new ++ s.foldr (fun c acc => c :: (new ++ acc)) []
  | o :: os => goRep o os new s

/-- Embeds `content.replace(old_str, new_str)` on strings. -/
def pyReplace (s old new : String) : String :=
  (pyReplaceL s.toList old.toList new.toList).asString

/-- Embeds the tool `read_file(path)`: validation errors (`ValueError`)
and `FileNotFoundError` are caught and returned as strings; any other
exception of `read_text` escapes the `try` (the source lists no bare
`except`), modelled as `Except.error`. -/
def read_file (fs : FS) (path : String) : Except String String :=
  match validate_path path readRoots with
  | .error e => .ok ("Error: " ++ e)
  | .ok safe =>
    match fs.read safe with
    | .ok content => .ok content
    | .notFound => .ok ("Error: File '" ++ path ++ "' not found")
    | .otherErr m => .error m

/-- Embeds the tool `write_file(path, content)`: validation errors
(`ValueError`) are caught and returned as strings; on a successful
write the parents are created, the file is overwritten and a
confirmation naming the resolved path is returned. Its `try` lists only
`except ValueError`, so any exception of `mkdir` or `write_text`
escapes, modelled as `Except.error` (the partial directory creation a
failing `mkdir` may leave behind is not modelled; no claim depends on
the failing call's end state). Returns the tool's string result and the
new filesystem. -/
def write_file (fs : FS) (path content : String) : Except String String × FS :=
  match validate_path path writeRoots with
  | .error e => (.ok ("Error: " ++ e), fs)
  | .ok safe =>
    match fs.writeErr safe with
    | some m => (.error m, fs)
    | none => (.ok ("Successfully wrote to '" ++ showPath safe ++ "'"), fs.write safe content)

/-- Embeds the tool `edit_file(path, old_str, new_str)`: validate
against the workspace, read, replace every occurrence with
`str.replace`, write back. `ValueError` and `FileNotFoundError` are
caught and returned as strings; any other exception of `read_text` or
of the `write_text` writing the result back escapes, modelled as
`Except.error`. -/
def edit_file (fs : FS) (path old_str new_str : String) : Except String String × FS :=
  match validate_path path writeRoots with
  | .error e => (.ok ("Error: " ++ e), fs)
  | .ok safe =>
    match fs.read safe with
    | .ok content =>
      match fs.writeErr safe with
      | some m => (.error m, fs)
      | none => (.ok ("Updated '" ++ showPath safe ++ "'"),
          fs.write safe (pyReplace content old_str new_str))
    | .notFound => (.ok ("Error: File '" ++ path ++ "' not found"), fs)
    | .otherErr m => (.error m, fs)

/-- The argument record of the one `subprocess.run` call in
`execute_command`. -/
structure SubprocCall where
  command : String
  shell : Bool
  capture_output : Bool
  text : Bool
  cwd : String
  timeout : Nat
deriving Repr, DecidableEq

/-- What `subprocess.run` can do: complete with an exit code and both
captured streams, raise `TimeoutExpired` (carrying whatever partial
output it captured), or fail to launch with any other exception. -/
inductive SubprocOutcome where
  | completed (returncode : Int) (stdout stderr : String)
  | timedOut (partialOutput : Option String)
  | launchFailure (msg : String)
deriving Repr, DecidableEq

/-- The exact `subprocess.run` invocation `execute_command` makes for a
given command string: `shell=True`, output captured as text, working
directory pinned to the workspace root, `timeout=30`. -/
def executeCall (command : String) : SubprocCall :=
  { command := command
    shell := true
    capture_output := true
    text := true
    cwd := showPath AGENT_WORKSPACE_DIR
    timeout := 30 }

/-- Embeds the tool `execute_command(command)` over an oracle `runner`
standing for `subprocess.run`: format the completed result, turn
`TimeoutExpired` into a fixed message (discarding partial output), and
turn any other exception into a descriptive string — every outcome
yields a string, nothing is re-raised. -/
def execute_command (runner : SubprocCall → SubprocOutcome) (command : String) : String :=
  match runner (executeCall command) with
  | .completed rc out err => "Exit Code: " ++ toString rc ++ "\nOutput: " ++ out ++ "\nError: " ++ err
  | .timedOut _ => "Error: Command timed out (exceeded 30 seconds)"
  | .launchFailure m => "Error executing command: " ++ m

/-- The events `agent.run_stream_events` yields, as `event_generator`
discriminates them (by `isinstance` for `AgentRunResultEvent`, by class
name for the rest). `finalResult` carries `event.result.output` and the
resulting message history the result object holds; `partDelta` carries
`event.delta.content` when the delta has a `content` attribute
(`none` models a delta without one, e.g. a tool-call args delta);
`other` carries `str(event)` for any unrecognized variant. -/
inductive AgentEvent where
  | finalResult (output : String) (history : List String)
  | partDelta (content : Option String)
  | toolCall (tool_name : String) (args : String)
  | toolResult (tool_name : String) (content : String)
  | partStart (content : Option String) (tool_name : Option String)
  | partEnd (content : Option String) (tool_name : Option String)
  | other (description : String)
deriving Repr, DecidableEq

/-- One SSE frame: the JSON object of each `yield` in
`event_generator`, keyed by its `type` discriminant. -/
inductive WireFrame where
  | final (content : String) (new_history : List String)
  | delta (content : String)
  | tool_call (tool_name : String) (args : String)
  | tool_result (tool_name : String) (content : String)
  | part_start (content : Option String) (tool_name : Option String)
  | part_end (content : Option String) (tool_name : Option String)
  | event (description : String)
deriving Repr, DecidableEq

/-- Whether a frame is the terminal `type = "final"` frame. -/
def WireFrame.isFinal : WireFrame → Bool
  | .final _ _ => true
  | _ => false

/-- The frames one loop iteration of `event_generator` yields for one
event: one frame per branch, except that a `PartDeltaEvent` whose delta
has no `content` attribute falls through its inner `if` with no `yield`
at all, and the `final` frame hardcodes `new_history` to `[]`. -/
def frameOf : AgentEvent → List WireFrame
  | .finalResult out _ => [.final out []]
  | .partDelta (some c) => [.delta c]
  | .partDelta none => []
  | .toolCall n a => [.tool_call n a]
  | .toolResult n c => [.tool_result n c]
  | .partStart c n => [.part_start c n]
  | .partEnd c n => [.part_end c n]
  | .other d => [.event d]

/-- Embeds the whole `event_generator` loop over one run's event
sequence: the frames of each event, flushed in arrival order. -/
def relay : List AgentEvent → List WireFrame
  | [] => []
  | e :: rest => frameOf e ++ relay rest

/-- The single frame of an event that yields one (the value at
`partDelta none`, which yields no frame, is arbitrary). -/
def frame1 : AgentEvent → WireFrame
  | .finalResult out _ => .final out []
  | .partDelta (some c) => .delta c
  | .partDelta none => .event ""
  | .toolCall n a => .tool_call n a
  | .toolResult n c => .tool_result n c
  | .partStart c n => .part_start c n
  | .partEnd c n => .part_end c n
  | .other d => .event d

lemma frameOf_eq_frame1 (e : AgentEvent) (h : e ≠ AgentEvent.partDelta none) :
    frameOf e = [frame1 e] := by
  cases e with
  | partDelta c => cases c with
    | none => exact absurd rfl h
    | some c => rfl
  | finalResult o hs => rfl
  | toolCall n a => rfl
  | toolResult n c => rfl
  | partStart c n => rfl
  | partEnd c n => rfl
  | other d => rfl

/-- C2 counterexample: a `PartDeltaEvent` whose delta has no `content`
attribute (e.g. a tool-call arguments delta) produces no frame at all,
so the relay does not emit exactly one frame per event of every shape. -/
theorem relay_drops_contentless_delta :
    relay [AgentEvent.partDelta none] = [] ∧ (relay [AgentEvent.partDelta none]).length ≠ 1 :=
  ⟨rfl, by decide⟩

/-- C2 (amended): over any event sequence containing no content-less
`PartDeltaEvent`, the relay emits exactly one frame per event, in
arrival order, nothing dropped, coalesced or reordered; in particular
the four-event run delta, tool call, tool result, final yields exactly
four frames in that order, of which only the fourth is of type final. -/
theorem relay_one_frame_per_event (evs : List AgentEvent)
    (h : ∀ e ∈ evs, e ≠ AgentEvent.partDelta none) :
    relay evs = evs.map frame1
    ∧ (relay evs).length = evs.length
    ∧ relay [AgentEvent.partDelta (some "a"),
        AgentEvent.toolCall "execute_command" "ls",
        AgentEvent.toolResult "execute_command" "ok",
        AgentEvent.finalResult "done" []]
      = [WireFrame.delta "a", WireFrame.tool_call "execute_command" "ls",
        WireFrame.tool_result "execute_command" "ok", WireFrame.final "done" []]
    ∧ ([WireFrame.delta "a", WireFrame.tool_call "execute_command" "ls",
        WireFrame.tool_result "execute_command" "ok", WireFrame.final "done" []].map
          WireFrame.isFinal) = [false, false, false, true] := by
  have main : relay evs = evs.map frame1 := by
    induction evs with
    | nil => rfl
    | cons e t ih =>
      have he : frameOf e = [frame1 e] := frameOf_eq_frame1 e (h e (List.mem_cons_self e t))
      have ht : relay t = t.map frame1 := ih (fun x hx => h x (List.mem_cons_of_mem e hx))
      simp [relay, he, ht]
  refine ⟨main, ?_, rfl, rfl⟩
  rw [main, List.length_map]

/-- C2 witness: the amended theorem applied to a concrete two-event run
with no content-less delta. -/
theorem relay_one_frame_per_event_witness :
    (∀ e ∈ [AgentEvent.partDelta (some "a"), AgentEvent.finalResult "done" []],
      e ≠ AgentEvent.partDelta none)
    ∧ relay [AgentEvent.partDelta (some "a"), AgentEvent.finalResult "done" []]
      = [WireFrame.delta "a", WireFrame.final "done" []] :=
  ⟨by decide,
    ((relay_one_frame_per_event
      [AgentEvent.partDelta (some "a"), AgentEvent.finalResult "done" []] (by decide)).1).trans rfl⟩

/-- C3 counterexample: the frame emitted for a `FinalResult` event that
carries the non-empty resulting history `["m1"]` has `new_history = []`,
not the carried history — the generator hardcodes the empty list. -/
theorem final_frame_drops_history :
    relay [AgentEvent.finalResult "done" ["m1"]] = [WireFrame.final "done" []]
    ∧ WireFrame.final "done" [] ≠ WireFrame.final "done" ["m1"] :=
  ⟨rfl, by decide⟩

/-- C3 (amended): every `FinalResult(output, history)` event yields
exactly the frame with type final and content `output`, but its
`new_history` field is always the empty list, whatever resulting
history the event carries. -/
theorem final_frame_shape (output : String) (history h₁ h₂ : List String) :
    frameOf (AgentEvent.finalResult output history) = [WireFrame.final output []]
    ∧ frameOf (AgentEvent.finalResult output h₁) = frameOf (AgentEvent.finalResult output h₂) :=
  ⟨rfl, rfl⟩

/-- C8: an event of any unrecognized variant (carrying its `str(event)`
description) still produces exactly one frame, of type event, rather
than aborting the relay or emitting nothing. -/
theorem relay_unknown_event (d : String) :
    relay [AgentEvent.other d] = [WireFrame.event d]
    ∧ (frameOf (AgentEvent.other d)).length = 1 :=
  ⟨rfl, rfl⟩

lemma validate_path_absolute_eq (p : String) (R : List (List String))
    (habs : (parsePath p).absolute = true) :
    validate_path p R =
      if R.any (fun base => base.isPrefixOf (collapse (parsePath p).segs)) then
        Except.ok (collapse (parsePath p).segs)
      else
        Except.error ("Path '" ++ p ++ "' is outside allowed directories: "
          ++ String.intercalate ", " (R.map pathName)) := by
  simp [validate_path, resolveCandidate, habs]

lemma validate_path_sound (p : String) (R : List (List String)) (res : List String)
    (h : validate_path p R = Except.ok res) : ∃ r ∈ R, r <+: res := by
  unfold validate_path at h
  cases hrc : resolveCandidate (parsePath p) R with
  | none => simp [hrc] at h
  | some r =>
    simp only [hrc] at h
    split at h
    · next hany =>
      obtain ⟨base, hbase, hpre⟩ := List.any_eq_true.mp hany
      injection h with h'
      exact h' ▸ ⟨base, hbase, List.isPrefixOf_iff_prefix.mp hpre⟩
    · simp at h

lemma foldl_collapseStep_pair (x y : String) (base : List String) (segs : List String) :
    ∀ u : List String,
      (∃ u', segs.foldl collapseStep (u ++ x :: base) = u' ++ x :: base
          ∧ segs.foldl collapseStep (u ++ y :: base) = u' ++ y :: base)
      ∨ segs.foldl collapseStep (u ++ x :: base) = segs.foldl collapseStep (u ++ y :: base) := by
  induction segs with
  | nil => exact fun u => Or.inl ⟨u, rfl, rfl⟩
  | cons s rest ih =>
    intro u
    by_cases hs : s = ".."
    · subst hs
      cases u with
      | nil =>
        right
        simp [collapseStep]
      | cons v u' =>
        have h₁ : collapseStep ((v :: u') ++ x :: base) ".." = u' ++ x :: base := by
          simp [collapseStep]
        have h₂ : collapseStep ((v :: u') ++ y :: base) ".." = u' ++ y :: base := by
          simp [collapseStep]
        simpa [List.foldl_cons, h₁, h₂] using ih u'
    · have h₁ : collapseStep (u ++ x :: base) s = (s :: u) ++ x :: base := by
        simp [collapseStep, hs]
      have h₂ : collapseStep (u ++ y :: base) s = (s :: u) ++ y :: base := by
        simp [collapseStep, hs]
      simpa [List.foldl_cons, h₁, h₂] using ih (s :: u)

/-- The two allowed roots are siblings under the same parent directory:
joining and resolving any relative segment list against them either
keeps each result under its own root (the `..`s never climb out), or
climbs past both roots' final components, after which both resolutions
coincide. -/
lemma collapse_append_sibling (segs : List String) :
    (∃ t, collapse (AGENT_WORKSPACE_DIR ++ segs) = AGENT_WORKSPACE_DIR ++ t
        ∧ collapse (SKILLS_DIR ++ segs) = SKILLS_DIR ++ t)
    ∨ collapse (AGENT_WORKSPACE_DIR ++ segs) = collapse (SKILLS_DIR ++ segs) := by
  have hW : (AGENT_WORKSPACE_DIR ++ segs).foldl collapseStep []
      = segs.foldl collapseStep ([] ++ "agent_workspace" :: ["backend", "midi-agent", "root"]) := by
    rw [List.foldl_append]
    rfl
  have hS : (SKILLS_DIR ++ segs).foldl collapseStep []
      = segs.foldl collapseStep ([] ++ "skills" :: ["backend", "midi-agent", "root"]) := by
    rw [List.foldl_append]
    rfl
  rcases foldl_collapseStep_pair "agent_workspace" "skills" ["backend", "midi-agent", "root"]
      segs [] with ⟨u', h₁, h₂⟩ | heq
  · left
    refine ⟨u'.reverse, ?_, ?_⟩
    · rw [collapse, hW, h₁, List.reverse_append]
      rfl
    · rw [collapse, hS, h₂, List.reverse_append]
      rfl
  · right
    rw [collapse, collapse, hW, hS, heq]

lemma exists_ok_two_roots (p : String) (hrel : (parsePath p).absolute = false)
    (W S : List String) :
    (∃ res, validate_path p [W, S] = Except.ok res)
      ↔ (W.isPrefixOf (collapse (W ++ (parsePath p).segs)) = true
        ∨ S.isPrefixOf (collapse (S ++ (parsePath p).segs)) = true
        ∨ S.isPrefixOf (collapse (W ++ (parsePath p).segs)) = true) := by
  by_cases h₁ : W.isPrefixOf (collapse (W ++ (parsePath p).segs)) = true
  · simp only [validate_path, resolveCandidate, hrel, Bool.false_eq_true, if_false,
      List.findSome?_cons, h₁]
    simp [h₁]
  · by_cases h₂ : S.isPrefixOf (collapse (S ++ (parsePath p).segs)) = true
    · simp only [validate_path, resolveCandidate, hrel, Bool.false_eq_true, if_false,
        List.findSome?_cons, List.findSome?_nil]
      simp [h₁, h₂]
    · by_cases h₃ : S.isPrefixOf (collapse (W ++ (parsePath p).segs)) = true
      · simp only [validate_path, resolveCandidate, hrel, Bool.false_eq_true, if_false,
          List.findSome?_cons, List.findSome?_nil]
        simp [h₁, h₂, h₃]
      · simp only [validate_path, resolveCandidate, hrel, Bool.false_eq_true, if_false,
          List.findSome?_cons, List.findSome?_nil]
        simp [h₁, h₂, h₃]

lemma exists_ok_one_root (p : String) (hrel : (parsePath p).absolute = false)
    (W : List String) :
    (∃ res, validate_path p [W] = Except.ok res)
      ↔ W.isPrefixOf (collapse (W ++ (parsePath p).segs)) = true := by
  by_cases h₁ : W.isPrefixOf (collapse (W ++ (parsePath p).segs)) = true
  · simp only [validate_path, resolveCandidate, hrel, Bool.false_eq_true, if_false,
      List.findSome?_cons, List.findSome?_nil]
    simp [h₁]
  · simp only [validate_path, resolveCandidate, hrel, Bool.false_eq_true, if_false,
      List.findSome?_cons, List.findSome?_nil]
    simp [h₁]

lemma validate_path_relative_readRoots (p : String)
    (hrel : (parsePath p).absolute = false) :
    (∃ res, validate_path p readRoots = Except.ok res)
      ↔ ∃ base ∈ readRoots, ∃ r ∈ readRoots,
          r <+: collapse (base ++ (parsePath p).segs) := by
  rw [show readRoots = [AGENT_WORKSPACE_DIR, SKILLS_DIR] from rfl,
    exists_ok_two_roots p hrel]
  rcases collapse_append_sibling (parsePath p).segs with ⟨t, htW, htS⟩ | heq
  · constructor
    · intro _
      exact ⟨AGENT_WORKSPACE_DIR, by simp, AGENT_WORKSPACE_DIR, by simp,
        htW ▸ List.prefix_append _ _⟩
    · intro _
      exact Or.inl (List.isPrefixOf_iff_prefix.mpr (htW ▸ List.prefix_append _ _))
  · rw [heq]
    constructor
    · rintro (h | h | h)
      · exact ⟨SKILLS_DIR, by simp, AGENT_WORKSPACE_DIR, by simp,
          List.isPrefixOf_iff_prefix.mp h⟩
      · exact ⟨SKILLS_DIR, by simp, SKILLS_DIR, by simp, List.isPrefixOf_iff_prefix.mp h⟩
      · exact ⟨SKILLS_DIR, by simp, SKILLS_DIR, by simp, List.isPrefixOf_iff_prefix.mp h⟩
    · rintro ⟨base, hbase, r, hr, hpre⟩
      have hbase' : collapse (base ++ (parsePath p).segs)
          = collapse (SKILLS_DIR ++ (parsePath p).segs) := by
        rcases List.mem_pair.mp hbase with h | h
        · rw [h, heq]
        · rw [h]
      rw [hbase'] at hpre
      rcases List.mem_pair.mp hr with h | h
      · exact Or.inl (List.isPrefixOf_iff_prefix.mpr (h ▸ hpre))
      · exact Or.inr (Or.inl (List.isPrefixOf_iff_prefix.mpr (h ▸ hpre)))

lemma validate_path_relative_writeRoots (p : String)
    (hrel : (parsePath p).absolute = false) :
    (∃ res, validate_path p writeRoots = Except.ok res)
      ↔ ∃ base ∈ writeRoots, ∃ r ∈ writeRoots,
          r <+: collapse (base ++ (parsePath p).segs) := by
  rw [show writeRoots = [AGENT_WORKSPACE_DIR] from rfl, exists_ok_one_root p hrel]
  constructor
  · intro h
    exact ⟨AGENT_WORKSPACE_DIR, by simp, AGENT_WORKSPACE_DIR, by simp,
      List.isPrefixOf_iff_prefix.mp h⟩
  · rintro ⟨base, hbase, r, hr, hpre⟩
    rw [List.mem_singleton.mp hbase] at hpre
    rw [List.mem_singleton.mp hr] at hpre
    exact List.isPrefixOf_iff_prefix.mpr hpre

/-- C1: `validate_path` succeeds exactly on containment in canonical
form. For any root set of canonical roots: an absolute candidate is
accepted iff its canonical (`..`-collapsed) form is equal to or a
descendant of (`<+:` on canonical segment lists) the canonical form of
some root, and any accepted path resolves to a descendant of some
root. For the program's two root sets: a relative candidate is
accepted iff its canonical form against some root (join then collapse)
is equal to or a descendant of some root. And both the traversal
string `"../../etc/passwd"` and an absolute path outside every root
are rejected with a `ValueError` naming all allowed roots. -/
theorem validate_path_spec (p : String) (R : List (List String))
    (hcanon : ∀ r ∈ R, collapse r = r) :
    ((parsePath p).absolute = true →
      ((∃ res, validate_path p R = Except.ok res)
        ↔ ∃ r ∈ R, collapse r <+: collapse (parsePath p).segs))
    ∧ (∀ res, validate_path p R = Except.ok res → ∃ r ∈ R, collapse r <+: res)
    ∧ ((parsePath p).absolute = false →
        ((∃ res, validate_path p readRoots = Except.ok res)
          ↔ ∃ base ∈ readRoots, ∃ r ∈ readRoots,
              r <+: collapse (base ++ (parsePath p).segs)))
    ∧ ((parsePath p).absolute = false →
        ((∃ res, validate_path p writeRoots = Except.ok res)
          ↔ ∃ base ∈ writeRoots, ∃ r ∈ writeRoots,
              r <+: collapse (base ++ (parsePath p).segs)))
    ∧ validate_path "../../etc/passwd" readRoots
        = Except.error "Path '../../etc/passwd' is outside allowed directories: agent_workspace, skills"
    ∧ validate_path "/etc/passwd" readRoots
        = Except.error "Path '/etc/passwd' is outside allowed directories: agent_workspace, skills" := by
  refine ⟨?_, ?_, validate_path_relative_readRoots p, validate_path_relative_writeRoots p,
    rfl, rfl⟩
  · intro habs
    rw [validate_path_absolute_eq p R habs]
    constructor
    · rintro ⟨res, hres⟩
      split at hres
      · next hany =>
        obtain ⟨base, hbase, hpre⟩ := List.any_eq_true.mp hany
        exact ⟨base, hbase, (hcanon base hbase).symm ▸ List.isPrefixOf_iff_prefix.mp hpre⟩
      · simp at hres
    · rintro ⟨r, hr, hpre⟩
      have hany : R.any (fun base => base.isPrefixOf (collapse (parsePath p).segs)) = true :=
        List.any_eq_true.mpr
          ⟨r, hr, List.isPrefixOf_iff_prefix.mpr (hcanon r hr ▸ hpre)⟩
      exact ⟨collapse (parsePath p).segs, by rw [if_pos hany]⟩
  · intro res hres
    obtain ⟨r, hr, hpre⟩ := validate_path_sound p R res hres
    exact ⟨r, hr, (hcanon r hr).symm ▸ hpre⟩

/-- C1 witness: the theorem applied with the program's two canonical
roots, accepting an absolute path inside the workspace. -/
theorem validate_path_spec_witness :
    (∀ r ∈ readRoots, collapse r = r)
    ∧ (∃ res, validate_path "/root/midi-agent/backend/agent_workspace/out.mid" readRoots
        = Except.ok res) :=
  ⟨by decide,
    ((validate_path_spec "/root/midi-agent/backend/agent_workspace/out.mid" readRoots
        (by decide)).1 rfl).mpr
      ⟨AGENT_WORKSPACE_DIR, by decide, ⟨["out.mid"], by decide⟩⟩⟩

/-- A filesystem in which the workspace entry `adir` is a directory, so
both reading it (`read_text`) and writing it (`write_text`) raise
`IsADirectoryError` — an exception no file tool's `except` clauses
cover. -/
def dirFS : FS :=
  { read := fun q =>
      if q = AGENT_WORKSPACE_DIR ++ ["adir"] then
        ReadOutcome.otherErr "IsADirectoryError: [Errno 21] Is a directory: adir"
      else ReadOutcome.notFound
    writeErr := fun q =>
      if q = AGENT_WORKSPACE_DIR ++ ["adir"] then
        some "IsADirectoryError: [Errno 21] Is a directory: adir"
      else none
    dirs := [] }

/-- C4 counterexample: on a validated path that is a directory, both
`read_file` (whose `read_text()` raises) and `write_file` (whose
`write_text()` raises, with only `ValueError` caught) propagate the
unclassified exception to their caller instead of returning a string
result. -/
theorem file_tools_propagate :
    read_file dirFS "adir" = Except.error "IsADirectoryError: [Errno 21] Is a directory: adir"
    ∧ (write_file dirFS "adir" "x").1
      = Except.error "IsADirectoryError: [Errno 21] Is a directory: adir" :=
  ⟨rfl, rfl⟩

/-- C4 (amended): each file tool catches `ValueError` (path violations)
and, where it reads, `FileNotFoundError`, returning them as string
results; but every file tool can still propagate an unclassified
exception: the only way `read_file` fails is an unclassified exception
of its read, the only way `write_file` fails is an unclassified
exception of its `mkdir`/`write_text`, and the only ways `edit_file`
fails are an unclassified exception of its read or of its write-back.
(Total exception capture holds only for `execute_command`.) -/
theorem tool_surface_error_strings (fs : FS) (path content old_str new_str : String) :
    ((∃ s, read_file fs path = Except.ok s)
      ∨ ∃ safe m, validate_path path readRoots = Except.ok safe
          ∧ fs.read safe = ReadOutcome.otherErr m)
    ∧ ((∃ s, (write_file fs path content).1 = Except.ok s)
      ∨ ∃ safe m, validate_path path writeRoots = Except.ok safe
          ∧ fs.writeErr safe = some m)
    ∧ ((∃ s, (edit_file fs path old_str new_str).1 = Except.ok s)
      ∨ ∃ safe, validate_path path writeRoots = Except.ok safe
          ∧ ((∃ m, fs.read safe = ReadOutcome.otherErr m)
            ∨ ∃ c m, fs.read safe = ReadOutcome.ok c ∧ fs.writeErr safe = some m)) := by
  refine ⟨?_, ?_, ?_⟩
  · cases hv : validate_path path readRoots with
    | error e => exact Or.inl ⟨"Error: " ++ e, by simp [read_file, hv]⟩
    | ok safe =>
      cases hr : fs.read safe with
      | ok c => exact Or.inl ⟨c, by simp [read_file, hv, hr]⟩
      | notFound => exact Or.inl ⟨"Error: File '" ++ path ++ "' not found", by simp [read_file, hv, hr]⟩
      | otherErr m => exact Or.inr ⟨safe, m, rfl, hr⟩
  · cases hv : validate_path path writeRoots with
    | error e => exact Or.inl ⟨"Error: " ++ e, by simp [write_file, hv]⟩
    | ok safe =>
      cases hw : fs.writeErr safe with
      | some m => exact Or.inr ⟨safe, m, rfl, hw⟩
      | none =>
        exact Or.inl ⟨"Successfully wrote to '" ++ showPath safe ++ "'",
          by simp [write_file, hv, hw]⟩
  · cases hv : validate_path path writeRoots with
    | error e => exact Or.inl ⟨"Error: " ++ e, by simp [edit_file, hv]⟩
    | ok safe =>
      cases hr : fs.read safe with
      | ok c =>
        cases hw : fs.writeErr safe with
        | some m => exact Or.inr ⟨safe, rfl, Or.inr ⟨c, m, hr, hw⟩⟩
        | none =>
          exact Or.inl ⟨"Updated '" ++ showPath safe ++ "'", by simp [edit_file, hv, hr, hw]⟩
      | notFound => exact Or.inl ⟨"Error: File '" ++ path ++ "' not found", by simp [edit_file, hv, hr]⟩
      | otherErr m => exact Or.inr ⟨safe, rfl, Or.inl ⟨m, hr⟩⟩

lemma goRep_of_not_infix (o : Char) (os new : List Char) (s : List Char)
    (h : ¬ (o :: os) <:+: s) : goRep o os new s = s := by
  induction s with
  | nil => rw [goRep]
  | cons c t ih =>
    have hp : ¬ (o :: os).isPrefixOf (c :: t) = true := fun hpre =>
      h (List.isPrefixOf_iff_prefix.mp hpre).isInfix
    rw [goRep, if_neg hp]
    rw [ih (fun hinf => h (List.infix_cons hinf))]

lemma pyReplaceL_of_not_infix (s old new : List Char) (h : ¬ old <:+: s) :
    pyReplaceL s old new = s := by
  cases old with
  | nil => exact absurd List.nil_infix h
  | cons o os => exact goRep_of_not_infix o os new s h

lemma pyReplace_of_not_occur (content old new : String)
    (h : ¬ old.toList <:+: content.toList) : pyReplace content old new = content := by
  rw [pyReplace, pyReplaceL_of_not_infix _ _ _ h, String.asString_toList]

/-- C7: `edit_file` on an existing workspace file whose write-back
raises nothing succeeds, writing back the content with every
occurrence of `old_str` replaced by `new_str` under Python
`str.replace` semantics; when `old_str` does not occur in the content
(as a substring of its characters), the file is rewritten with
unchanged content and the call still returns the success message. -/
theorem edit_file_replaces (fs : FS) (path old_str new_str content : String)
    (safe : List String)
    (hv : validate_path path writeRoots = Except.ok safe)
    (hr : fs.read safe = ReadOutcome.ok content)
    (hw : fs.writeErr safe = none) :
    (edit_file fs path old_str new_str).1 = Except.ok ("Updated '" ++ showPath safe ++ "'")
    ∧ ((edit_file fs path old_str new_str).2).read safe
        = ReadOutcome.ok (pyReplace content old_str new_str)
    ∧ (¬ old_str.toList <:+: content.toList →
        ((edit_file fs path old_str new_str).2).read safe = ReadOutcome.ok content) := by
  refine ⟨by simp [edit_file, hv, hr, hw], by simp [edit_file, hv, hr, hw, FS.write], ?_⟩
  intro hno
  simp [edit_file, hv, hr, hw, FS.write, pyReplace_of_not_occur content old_str new_str hno]

/-- A workspace containing one file `song.py` with content `tempo`,
everywhere writable. -/
def editFS : FS :=
  { read := fun q =>
      if q = AGENT_WORKSPACE_DIR ++ ["song.py"] then ReadOutcome.ok "tempo"
      else ReadOutcome.notFound
    writeErr := fun _ => none
    dirs := [] }

/-- C7 witness: the theorem applied to a concrete file whose content
does not contain the pattern: the edit succeeds and the content is
unchanged. -/
theorem edit_file_replaces_witness :
    validate_path "song.py" writeRoots = Except.ok (AGENT_WORKSPACE_DIR ++ ["song.py"])
    ∧ ((edit_file editFS "song.py" "xyz" "abc").2).read (AGENT_WORKSPACE_DIR ++ ["song.py"])
        = ReadOutcome.ok "tempo" :=
  ⟨rfl,
    (edit_file_replaces editFS "song.py" "xyz" "abc" "tempo"
      (AGENT_WORKSPACE_DIR ++ ["song.py"]) rfl rfl rfl).2.2 (by decide)⟩

lemma interleave_length (newL l : List Char) :
    (l.foldr (fun c acc => c :: (newL ++ acc)) []).length = l.length * (1 + newL.length) := by
  induction l with
  | nil => simp
  | cons c t ih =>
    simp [ih]
    ring

/-- A workspace containing one file `f.txt` with the two-character
content `ab`, everywhere writable. -/
def c10FS : FS :=
  { read := fun q =>
      if q = AGENT_WORKSPACE_DIR ++ ["f.txt"] then ReadOutcome.ok "ab"
      else ReadOutcome.notFound
    writeErr := fun _ => none
    dirs := [] }

/-- C10 counterexample: with the empty replacement `new = ""`,
`edit_file(path, "", "")` on the non-empty file `ab` rewrites it with
exactly its old content — the content is left unchanged, so the claim
does not hold for every string `new`. -/
theorem edit_empty_old_unchanged :
    c10FS.read (AGENT_WORKSPACE_DIR ++ ["f.txt"]) = ReadOutcome.ok "ab"
    ∧ ((edit_file c10FS "f.txt" "" "").2).read (AGENT_WORKSPACE_DIR ++ ["f.txt"])
        = ReadOutcome.ok "ab" :=
  ⟨rfl, rfl⟩

/-- C10 (amended): `edit_file(path, "", new)` rewrites an existing file
of content `content` with `new` inserted before every character and
once after the last (Python `str.replace` semantics for an empty
pattern); when `new` and the content are both non-empty this changes
the content, but when `new` is empty the content is unchanged. -/
theorem edit_empty_old (fs : FS) (path new_str content : String) (safe : List String)
    (hv : validate_path path writeRoots = Except.ok safe)
    (hr : fs.read safe = ReadOutcome.ok content)
    (hw : fs.writeErr safe = none) :
    ((edit_file fs path "" new_str).2).read safe
      = ReadOutcome.ok ((new_str.toList
          ++ content.toList.foldr (fun c acc => c :: (new_str.toList ++ acc)) []).asString)
    ∧ (content ≠ "" → new_str ≠ "" →
        ((edit_file fs path "" new_str).2).read safe ≠ ReadOutcome.ok content) := by
  have hmain : ((edit_file fs path "" new_str).2).read safe
      = ReadOutcome.ok (pyReplace content "" new_str) := by
    simp [edit_file, hv, hr, hw, FS.write]
  have hshape : pyReplace content "" new_str
      = (new_str.toList
          ++ content.toList.foldr (fun c acc => c :: (new_str.toList ++ acc)) []).asString := rfl
  refine ⟨hmain.trans (congrArg ReadOutcome.ok hshape), ?_⟩
  intro hcont hnew heq
  rw [hmain, hshape] at heq
  injection heq with heq'
  have hL := congrArg String.toList heq'
  rw [List.toList_asString] at hL
  have hlen := congrArg List.length hL
  rw [List.length_append, interleave_length] at hlen
  have hm : new_str.toList.length ≠ 0 := by
    intro h0
    exact hnew (by rw [← String.asString_toList new_str, List.length_eq_zero.mp h0]; rfl)
  have hn : content.toList.length ≠ 0 := by
    intro h0
    exact hcont (by rw [← String.asString_toList content, List.length_eq_zero.mp h0]; rfl)
  rw [Nat.mul_add, Nat.mul_one] at hlen
  omega

/-- C10 witness: the amended theorem applied to the file `ab` with the
non-empty replacement `-`: the rewritten content differs from `ab` (it
is `-a-b-`). -/
theorem edit_empty_old_witness :
    validate_path "f.txt" writeRoots = Except.ok (AGENT_WORKSPACE_DIR ++ ["f.txt"])
    ∧ ((edit_file c10FS "f.txt" "" "-").2).read (AGENT_WORKSPACE_DIR ++ ["f.txt"])
        ≠ ReadOutcome.ok "ab" :=
  ⟨rfl,
    (edit_empty_old c10FS "f.txt" "-" "ab" (AGENT_WORKSPACE_DIR ++ ["f.txt"]) rfl rfl rfl).2
      (by decide) (by decide)⟩

/-- C5: the `subprocess.run` invocation made for any command pins the
working directory to the workspace root; the command string has no
influence on the working directory the command is launched with. -/
theorem execute_command_pinned_cwd (command : String) :
    (executeCall command).cwd = showPath AGENT_WORKSPACE_DIR
    ∧ (∀ c₁ c₂ : String, (executeCall c₁).cwd = (executeCall c₂).cwd) :=
  ⟨rfl, fun _ _ => rfl⟩

/-- C6: `execute_command` is total over every subprocess outcome: the
wall-clock limit passed is 30 seconds; a `TimeoutExpired` yields the
fixed timeout message whatever partial output was captured; any launch
failure yields a descriptive error string; a completed run yields the
formatted exit-code/stdout/stderr block — never an exception. -/
theorem execute_command_no_raise (runner : SubprocCall → SubprocOutcome) (command : String) :
    (executeCall command).timeout = 30
    ∧ (∀ po, runner (executeCall command) = SubprocOutcome.timedOut po →
        execute_command runner command = "Error: Command timed out (exceeded 30 seconds)")
    ∧ (∀ m, runner (executeCall command) = SubprocOutcome.launchFailure m →
        execute_command runner command = "Error executing command: " ++ m)
    ∧ (∀ rc out err, runner (executeCall command) = SubprocOutcome.completed rc out err →
        execute_command runner command
          = "Exit Code: " ++ toString rc ++ "\nOutput: " ++ out ++ "\nError: " ++ err) := by
  refine ⟨rfl, ?_, ?_, ?_⟩
  · intro po hpo
    simp [execute_command, hpo]
  · intro m hm
    simp [execute_command, hm]
  · intro rc out err hc
    simp [execute_command, hc]

/-- C6 witness: the theorem applied at concrete runners that time out
(with partial output, which is discarded), fail to launch, and
complete. -/
theorem execute_command_no_raise_witness :
    execute_command (fun _ => SubprocOutcome.timedOut (some "partial")) "sleep 35"
      = "Error: Command timed out (exceeded 30 seconds)"
    ∧ execute_command (fun _ => SubprocOutcome.launchFailure "No such file or directory") "pwd"
      = "Error executing command: No such file or directory"
    ∧ execute_command (fun _ => SubprocOutcome.completed 0 "ok\n" "") "ls"
      = "Exit Code: 0\nOutput: ok\n\nError: " :=
  ⟨(execute_command_no_raise (fun _ => SubprocOutcome.timedOut (some "partial"))
      "sleep 35").2.1 (some "partial") rfl,
   (execute_command_no_raise (fun _ => SubprocOutcome.launchFailure "No such file or directory")
      "pwd").2.2.1 "No such file or directory" rfl,
   (execute_command_no_raise (fun _ => SubprocOutcome.completed 0 "ok\n" "")
      "ls").2.2.2 0 "ok\n" "" rfl⟩

end MidiAgent
